import Mathlib

/-!
Verification of the KidsSmart+ search-classify-filter pipeline
(`app.py`) and its result store (`database.py`).

Strings are modelled by Lean `String` (a wrapper around `List Char`);
Python string slicing `s[:n]` is modelled by `takeChars n s`, Python's
`sub in s` substring test by `List.isInfixOf` on the underlying
character lists, and `str.lower()` by mapping `Char.toLower`.
External collaborators (SerpAPI transport, HTTP fetch + HTML text
extraction, sqlite) are modelled as oracles / explicit state, exactly
at the boundary where `app.py` calls them.
-/

namespace KidsSmart

/-- Python `s[:n]` on strings (slicing by characters). -/
def takeChars (n : Nat) (s : String) : String := ⟨s.data.take n⟩

/-- Python `s.lower()`: the lower-cased character list of `s`. -/
def lowerChars (s : String) : List Char := s.data.map Char.toLower

/-- Substring containment on character lists: `containsSub sub l` is
true iff `sub` occurs contiguously inside `l`. -/
def containsSub (sub : List Char) : List Char → Bool
  | [] => sub.isEmpty
  | c :: rest => sub.isPrefixOf (c :: rest) || containsSub sub rest

/-- Python `kw in t` where `t` is an (already lower-cased) character
list and `kw` a keyword string. -/
def containsKw (t : List Char) (kw : String) : Bool := containsSub kw.data t

/-- The fixed keyword list `EDU_KEYWORDS` of `app.py` (lines 36-40). -/
def EDU_KEYWORDS : List String :=
  ["course", "class", "workshop", "training", "tutorial",
   "webinar", "lecture", "program", "degree", "diploma",
   "certificate", "bootcamp", "seminar", "learn", "education", "study"]

/-- `is_educational` of `app.py` (lines 42-44): any keyword occurs in
the lower-cased text. -/
def is_educational (text : String) : Bool :=
  EDU_KEYWORDS.any (fun word => containsKw (lowerChars text) word)

/-- Substring occurrence as a proposition: `sub` occurs inside `l`. -/
def occursIn (sub : String) (l : List Char) : Prop :=
  ∃ s t, l = s ++ sub.data ++ t

theorem containsSub_iff (sub l : List Char) :
    containsSub sub l = true ↔ ∃ s t, l = s ++ sub ++ t := by
  induction l with
  | nil =>
    show sub.isEmpty = true ↔ _
    rw [List.isEmpty_iff]
    constructor
    · intro h
      exact ⟨[], [], by simp [h]⟩
    · rintro ⟨s, t, ht⟩
      rcases List.append_eq_nil.mp ht.symm with ⟨h1, h2⟩
      exact (List.append_eq_nil.mp h1).2
  | cons c rest ih =>
    rw [containsSub, Bool.or_eq_true, ih, List.isPrefixOf_iff_prefix]
    constructor
    · rintro (⟨t, ht⟩ | ⟨s, t, ht⟩)
      · exact ⟨[], t, ht.symm⟩
      · exact ⟨c :: s, t, by simp [ht]⟩
    · rintro ⟨s, t, ht⟩
      match s, ht with
      | [], ht => exact Or.inl ⟨t, by simp at ht; simp [ht]⟩
      | c' :: s', ht =>
        simp only [List.cons_append, List.cons.injEq] at ht
        exact Or.inr ⟨s', t, ht.2⟩

theorem isInfixOf_iff_occurs (sub : String) (l : List Char) :
    containsKw l sub = true ↔ occursIn sub l :=
  containsSub_iff sub.data l

/-- C2. `is_educational text` is true iff one of the 16 fixed keywords
occurs as a case-insensitive substring of `text` (i.e. as a substring
of the lower-cased text); in particular the empty string is not
educational. -/
theorem c2_is_educational_iff :
    (∀ text : String,
      is_educational text = true ↔
        ∃ word ∈ EDU_KEYWORDS, occursIn word (lowerChars text)) ∧
    is_educational "" = false := by
  constructor
  · intro text
    rw [is_educational, List.any_eq_true]
    constructor
    · rintro ⟨w, hw, h⟩
      exact ⟨w, hw, (isInfixOf_iff_occurs w (lowerChars text)).mp h⟩
    · rintro ⟨w, hw, h⟩
      exact ⟨w, hw, (isInfixOf_iff_occurs w (lowerChars text)).mpr h⟩
  · decide

/-- First keyword group of `classify_type` (app.py line 48). -/
def typeGroup1 (t : List Char) : Bool :=
  containsKw t "webinar" || containsKw t "seminar" || containsKw t "workshop"

/-- Second keyword group of `classify_type` (app.py line 50). -/
def typeGroup2 (t : List Char) : Bool :=
  containsKw t "video" || containsKw t "youtube" || containsKw t "lecture"

/-- Third keyword group of `classify_type` (app.py line 52). -/
def typeGroup3 (t : List Char) : Bool :=
  containsKw t "course" || containsKw t "short course" ||
    containsKw t "bootcamp" || containsKw t "mooc"

/-- `classify_type` of `app.py` (lines 46-54). -/
def classify_type (text : String) : String :=
  let t := lowerChars text
  if typeGroup1 t then "Seminar / Workshop"
  else if typeGroup2 t then "Video / Lecture"
  else if typeGroup3 t then "Course"
  else "Article / Other"

/-- First keyword group of `classify_mode` (app.py line 58). -/
def modeGroup1 (t : List Char) : Bool :=
  containsKw t "online" || containsKw t "virtual" ||
    containsKw t "remote" || containsKw t "self-paced"

/-- Second keyword group of `classify_mode` (app.py line 60). -/
def modeGroup2 (t : List Char) : Bool :=
  containsKw t "campus" || containsKw t "in-person" ||
    containsKw t "on campus" || containsKw t "classroom" || containsKw t "venue"

/-- `classify_mode` of `app.py` (lines 56-62). -/
def classify_mode (text : String) : String :=
  let t := lowerChars text
  if modeGroup1 t then "Online"
  else if modeGroup2 t then "In-person"
  else "Unknown"

/-- First keyword group of `classify_cost` (app.py line 66). -/
def costGroup1 (t : List Char) : Bool :=
  containsKw t "free" || containsKw t "no cost"

/-- Second keyword group of `classify_cost` (app.py line 68). -/
def costGroup2 (t : List Char) : Bool :=
  containsKw t "$" || containsKw t "aud" || containsKw t "fee" ||
    containsKw t "per month" || containsKw t "per year"

/-- `classify_cost` of `app.py` (lines 64-70). -/
def classify_cost (text : String) : String :=
  let t := lowerChars text
  if costGroup1 t then "Free"
  else if costGroup2 t then "Paid / Unknown"
  else "Unknown"

/-- C3. The three classifiers are first-match-wins over their ordered
keyword groups: any text hitting a group is labelled by the
highest-priority group it hits; a text hitting no group gets the
default label (`Article / Other`, `Unknown`, `Unknown`); in particular
any text containing both "webinar" and "course" is classified
`Seminar / Workshop`. -/
theorem c3_classifiers_first_match_wins :
    (∀ text : String,
      (typeGroup1 (lowerChars text) = true →
        classify_type text = "Seminar / Workshop") ∧
      (typeGroup1 (lowerChars text) = false → typeGroup2 (lowerChars text) = true →
        classify_type text = "Video / Lecture") ∧
      (typeGroup1 (lowerChars text) = false → typeGroup2 (lowerChars text) = false →
        typeGroup3 (lowerChars text) = true → classify_type text = "Course") ∧
      (typeGroup1 (lowerChars text) = false → typeGroup2 (lowerChars text) = false →
        typeGroup3 (lowerChars text) = false →
        classify_type text = "Article / Other")) ∧
    (∀ text : String,
      (modeGroup1 (lowerChars text) = true → classify_mode text = "Online") ∧
      (modeGroup1 (lowerChars text) = false → modeGroup2 (lowerChars text) = true →
        classify_mode text = "In-person") ∧
      (modeGroup1 (lowerChars text) = false → modeGroup2 (lowerChars text) = false →
        classify_mode text = "Unknown")) ∧
    (∀ text : String,
      (costGroup1 (lowerChars text) = true → classify_cost text = "Free") ∧
      (costGroup1 (lowerChars text) = false → costGroup2 (lowerChars text) = true →
        classify_cost text = "Paid / Unknown") ∧
      (costGroup1 (lowerChars text) = false → costGroup2 (lowerChars text) = false →
        classify_cost text = "Unknown")) ∧
    (∀ text : String, containsKw (lowerChars text) "webinar" = true →
      containsKw (lowerChars text) "course" = true →
      classify_type text = "Seminar / Workshop") := by
  refine ⟨fun text => ?_, fun text => ?_, fun text => ?_, fun text h1 _ => ?_⟩
  · exact ⟨fun h1 => by simp [classify_type, h1],
      fun h1 h2 => by simp [classify_type, h1, h2],
      fun h1 h2 h3 => by simp [classify_type, h1, h2, h3],
      fun h1 h2 h3 => by simp [classify_type, h1, h2, h3]⟩
  · exact ⟨fun h1 => by simp [classify_mode, h1],
      fun h1 h2 => by simp [classify_mode, h1, h2],
      fun h1 h2 => by simp [classify_mode, h1, h2]⟩
  · exact ⟨fun h1 => by simp [classify_cost, h1],
      fun h1 h2 => by simp [classify_cost, h1, h2],
      fun h1 h2 => by simp [classify_cost, h1, h2]⟩
  · simp [classify_type, typeGroup1, h1]

/-- Concrete instances of `c3_classifiers_first_match_wins`: the
"webinar"+"course" text resolves to the highest-priority group, and
keyword-free texts get each default label. -/
theorem c3_witness :
    classify_type "Free webinar about this course" = "Seminar / Workshop" ∧
    classify_type "plain text" = "Article / Other" ∧
    classify_mode "plain text" = "Unknown" ∧
    classify_cost "plain text" = "Unknown" := by
  refine ⟨?_, ?_, ?_, ?_⟩
  · exact c3_classifiers_first_match_wins.2.2.2
      "Free webinar about this course" (by decide) (by decide)
  · exact (c3_classifiers_first_match_wins.1 "plain text").2.2.2
      (by decide) (by decide) (by decide)
  · exact (c3_classifiers_first_match_wins.2.1 "plain text").2.2
      (by decide) (by decide)
  · exact (c3_classifiers_first_match_wins.2.2.1 "plain text").2.2
      (by decide) (by decide)

/-- `matches_location` of `app.py` (lines 72-91): country "Any" always
matches; otherwise with region "Any" the lower-cased country must occur
in the lower-cased text; with both set either the lower-cased country
or the lower-cased region must occur. -/
def matches_location (combined_text country region : String) : Bool :=
  let text := lowerChars combined_text
  if country = "Any" then true
  else
    let c := lowerChars country
    let r := lowerChars region
    if region = "Any" then containsSub c text
    else containsSub c text || containsSub r text

/-- C4. Case analysis of `matches_location`: always true when country
is "Any"; country-substring test when only the country is set; an OR of
the country and region substring tests when both are set (so a text
mentioning only the region matches). -/
theorem c4_matches_location_cases (text country region : String) :
    (country = "Any" → matches_location text country region = true) ∧
    (country ≠ "Any" → region = "Any" →
      (matches_location text country region = true ↔
        occursIn ⟨lowerChars country⟩ (lowerChars text))) ∧
    (country ≠ "Any" → region ≠ "Any" →
      (matches_location text country region = true ↔
        (occursIn ⟨lowerChars country⟩ (lowerChars text) ∨
         occursIn ⟨lowerChars region⟩ (lowerChars text)))) := by
  refine ⟨fun hc => by simp [matches_location, hc], fun hc hr => ?_, fun hc hr => ?_⟩
  · rw [matches_location]
    simp only [if_neg hc, if_pos hr]
    exact containsSub_iff (lowerChars country) (lowerChars text)
  · rw [matches_location]
    simp only [if_neg hc, if_neg hr, Bool.or_eq_true]
    exact or_congr (containsSub_iff _ _) (containsSub_iff _ _)

/-- Concrete instances of `c4_matches_location_cases`, matching the
spec's examples: region-only mention matches, country-only mention
matches, an unrelated page does not, and "Any" always matches. -/
theorem c4_witness :
    matches_location "Melbourne Australia program" "Australia" "Melbourne" = true ∧
    matches_location "Program in Australia" "Australia" "Melbourne" = true ∧
    matches_location "Unrelated page" "Australia" "Melbourne" = false ∧
    matches_location "anything" "Any" "Any" = true := by
  refine ⟨?_, ?_, ?_, ?_⟩
  · exact ((c4_matches_location_cases "Melbourne Australia program" "Australia"
      "Melbourne").2.2 (by decide) (by decide)).mpr
      (Or.inr ⟨"".data, " australia program".data, by decide⟩)
  · exact ((c4_matches_location_cases "Program in Australia" "Australia"
      "Melbourne").2.2 (by decide) (by decide)).mpr
      (Or.inl ⟨"program in ".data, "".data, by decide⟩)
  · by_contra h
    rw [Bool.not_eq_false] at h
    rcases ((c4_matches_location_cases "Unrelated page" "Australia"
      "Melbourne").2.2 (by decide) (by decide)).mp h with hcase | hcase <;>
      · rcases hcase with ⟨s, t, hst⟩
        have : containsSub _ _ = true := (containsSub_iff _ _).mpr ⟨s, t, hst⟩
        revert this
        decide
  · exact (c4_matches_location_cases "anything" "Any" "Any").1 rfl

/-- The filter dictionary passed to `search_web` (app.py lines 259-265). -/
structure Filters where
  type : String
  mode : String
  cost : String
  country : String
  region : String
deriving DecidableEq

/-- The `base_parts` list built by `search_web` (app.py lines 126-146):
the three fixed terms followed by at most one term per categorical
filter dimension. -/
def base_parts (topic : String) (f : Filters) : List String :=
  [topic, "education", "course OR workshop OR webinar OR training"] ++
  (if f.type = "Course" then ["course"]
   else if f.type = "Seminar / Workshop" then ["seminar OR workshop"]
   else if f.type = "Video / Lecture" then ["video OR lecture"]
   else []) ++
  (if f.mode = "Online" then ["online"]
   else if f.mode = "In-person" then ["in person OR on campus"]
   else []) ++
  (if f.cost = "Free" then ["free"]
   else if f.cost = "Paid / Unknown" then ["fee OR $"]
   else [])

/-- The `tries` list of `search_web` (app.py lines 151-159): base plus
country plus region (when both are set), base plus country (when the
country is set), and the bare base list as final fallback. -/
def searchTries (topic : String) (f : Filters) : List (List String) :=
  (if f.country ≠ "Any" ∧ f.region ≠ "Any"
    then [base_parts topic f ++ [f.country, f.region]] else []) ++
  (if f.country ≠ "Any" then [base_parts topic f ++ [f.country]] else []) ++
  [base_parts topic f]

/-- Python `" ".join(parts)` (app.py line 162). -/
def joinParts : List String → String
  | [] => ""
  | [p] => p
  | p :: q :: rest => p ++ " " ++ joinParts (q :: rest)

/-- The candidate query strings tried by `search_web`, in order. -/
def searchQueries (topic : String) (f : Filters) : List String :=
  (searchTries topic f).map joinParts

theorem string_append_assoc (a b c : String) : a ++ b ++ c = a ++ (b ++ c) := by
  cases a; cases b; cases c
  show String.mk _ = String.mk _
  simp [String.append, List.append_assoc]

theorem joinParts_append_single (l : List String) (x : String) (h : l ≠ []) :
    joinParts (l ++ [x]) = joinParts l ++ " " ++ x := by
  induction l with
  | nil => exact absurd rfl h
  | cons p rest ih =>
    cases rest with
    | nil => simp [joinParts]
    | cons q rest' =>
      have hrec := ih (by simp)
      show joinParts (p :: ((q :: rest') ++ [x])) = _
      rw [show (q :: rest') ++ [x] = q :: (rest' ++ [x]) from rfl]
      rw [show joinParts (p :: q :: (rest' ++ [x])) =
            p ++ " " ++ joinParts (q :: (rest' ++ [x])) from rfl]
      rw [show (q : String) :: (rest' ++ [x]) = (q :: rest') ++ [x] from rfl, hrec,
        joinParts]
      simp [string_append_assoc]

theorem base_parts_ne_nil (topic : String) (f : Filters) :
    base_parts topic f ≠ [] := by
  simp [base_parts]

/-- C5 (amended). With country and region both set, the query builder
produces exactly 3 candidates: the first is the base query followed by
the country and then the region, the second the base query followed by
the country only, the third the bare base query with no location terms
appended; the base list is shared unchanged — every candidate is
base-plus-suffix. -/
theorem c5_query_candidates (topic : String) (f : Filters)
    (hc : f.country ≠ "Any") (hr : f.region ≠ "Any") :
    searchTries topic f =
      [base_parts topic f ++ [f.country, f.region],
       base_parts topic f ++ [f.country],
       base_parts topic f] ∧
    searchQueries topic f =
      [joinParts (base_parts topic f) ++ " " ++ f.country ++ " " ++ f.region,
       joinParts (base_parts topic f) ++ " " ++ f.country,
       joinParts (base_parts topic f)] ∧
    (searchQueries topic f).length = 3 := by
  have htries : searchTries topic f =
      [base_parts topic f ++ [f.country, f.region],
       base_parts topic f ++ [f.country],
       base_parts topic f] := by
    simp [searchTries, hc, hr]
  refine ⟨htries, ?_, ?_⟩
  · rw [searchQueries, htries]
    have h1 : base_parts topic f ++ [f.country, f.region] =
        (base_parts topic f ++ [f.country]) ++ [f.region] := by simp
    rw [List.map_cons, List.map_cons, List.map_cons, List.map_nil, h1,
      joinParts_append_single (base_parts topic f ++ [f.country]) f.region
        (by simp),
      joinParts_append_single (base_parts topic f) f.country
        (base_parts_ne_nil topic f)]
  · rw [searchQueries, htries]
    rfl

/-- Concrete instance of `c5_query_candidates` at the spec's example
input (topic "python basics", country "Australia", region
"Melbourne"). -/
theorem c5_witness :
    searchQueries "python basics"
      ⟨"Any", "Any", "Any", "Australia", "Melbourne"⟩ =
      ["python basics education course OR workshop OR webinar OR training Australia Melbourne",
       "python basics education course OR workshop OR webinar OR training Australia",
       "python basics education course OR workshop OR webinar OR training"] := by
  have h := (c5_query_candidates "python basics"
    ⟨"Any", "Any", "Any", "Australia", "Melbourne"⟩
    (by decide) (by decide)).2.1
  rw [h]
  decide

/-- The claim as frozen also asserts the third candidate contains
neither the country nor the region; that fails when the topic itself
mentions them: with topic "Melbourne Australia" the third (base-only)
candidate contains both. -/
theorem c5_counterexample :
    (searchQueries "Melbourne Australia"
      ⟨"Any", "Any", "Any", "Australia", "Melbourne"⟩).length = 3 ∧
    containsSub "Australia".data
      ((searchQueries "Melbourne Australia"
        ⟨"Any", "Any", "Any", "Australia", "Melbourne"⟩).getD 2 "").data = true ∧
    containsSub "Melbourne".data
      ((searchQueries "Melbourne Australia"
        ⟨"Any", "Any", "Any", "Australia", "Melbourne"⟩).getD 2 "").data = true := by
  decide

/-- C10. With country "Any" the region is never read: the candidate
query list collapses to the single base query whatever the region is,
and `matches_location` returns true whatever the region is, so no
output of the core depends on the region value. -/
theorem c10_region_ignored_when_country_any (topic : String) (f : Filters)
    (r1 r2 text : String) (hc : f.country = "Any") :
    searchQueries topic { f with region := r1 } =
      [joinParts (base_parts topic f)] ∧
    searchQueries topic { f with region := r1 } =
      searchQueries topic { f with region := r2 } ∧
    matches_location text f.country r1 = true ∧
    matches_location text f.country r1 = matches_location text f.country r2 := by
  obtain ⟨ft, fm, fc, fco, fr⟩ := f
  simp only at hc
  subst hc
  refine ⟨?_, ?_, ?_, ?_⟩
  · simp [searchQueries, searchTries, base_parts]
  · simp [searchQueries, searchTries, base_parts]
  · simp [matches_location]
  · simp [matches_location]

/-- Concrete instance of `c10_region_ignored_when_country_any`: two
different regions under country "Any" give the same single-candidate
query list and the same location verdict. -/
theorem c10_witness :
    searchQueries "python basics" ⟨"Any", "Any", "Any", "Any", "Melbourne"⟩ =
      searchQueries "python basics" ⟨"Any", "Any", "Any", "Any", "Sydney"⟩ ∧
    matches_location "Unrelated page" "Any" "Melbourne" = true := by
  constructor
  · exact (c10_region_ignored_when_country_any "python basics"
      ⟨"Any", "Any", "Any", "Any", "Melbourne"⟩ "Melbourne" "Sydney"
      "Unrelated page" rfl).2.1
  · exact (c10_region_ignored_when_country_any "python basics"
      ⟨"Any", "Any", "Any", "Any", "Melbourne"⟩ "Melbourne" "Sydney"
      "Unrelated page" rfl).2.2.1

/-- A search hit as assembled by `_run_serpapi_query` (app.py line 111). -/
structure Hit where
  title : String
  link : String
  snippet : String
deriving DecidableEq

/-- A raw entry of the provider's `organic_results` list, with the
`.get(..., "")` defaults of app.py lines 107-109 already applied. -/
structure RawHit where
  title : String
  link : String
  snippet : String
deriving DecidableEq

/-- `_run_serpapi_query` of `app.py` (lines 95-112), with the SerpAPI
transport abstracted away: given the raw `organic_results` list of the
response, keep the first `max_results` entries, drop those with an
empty link, and repackage the rest. -/
def run_serpapi_query (organic : List RawHit) (max_results : Nat) : List Hit :=
  ((organic.take max_results).filter (fun r => r.link ≠ "")).map
    (fun r => ⟨r.title, r.link, r.snippet⟩)

/-- One iteration of the `search_web` loop body (app.py lines 163-167):
run the query against the provider; if the provider raises, report and
use the empty list. The provider oracle maps each query string to
either an exception message or a raw `organic_results` list. -/
def runQuery (provider : String → Except String (List RawHit))
    (q : String) (max_results : Nat) : List Hit :=
  match provider q with
  | Except.error _ => []
  | Except.ok organic => run_serpapi_query organic max_results

/-- The candidate loop of `search_web` (app.py lines 161-173): try the
queries in order, return the first non-empty result list, else `[]`. -/
def searchLoop (provider : String → Except String (List RawHit)) :
    List String → Nat → List Hit
  | [], _ => []
  | q :: rest, max_results =>
    let results := runQuery provider q max_results
    if results.isEmpty then searchLoop provider rest max_results else results

/-- `search_web` of `app.py` (lines 114-173), minus the API-key guard:
build the candidate queries and run the fallback loop. -/
def search_web (provider : String → Except String (List RawHit))
    (topic : String) (f : Filters) (max_results : Nat) : List Hit :=
  searchLoop provider (searchQueries topic f) max_results

/-- Modelled from the spec (section 4.4 step 3): the first non-empty
list among the per-candidate results, or `[]` when all are empty. -/
def firstNonEmptySpec : List (List Hit) → List Hit
  | [] => []
  | l :: ls => if l.isEmpty then firstNonEmptySpec ls else l

theorem runQuery_length_le (provider : String → Except String (List RawHit))
    (q : String) (n : Nat) : (runQuery provider q n).length ≤ n := by
  rw [runQuery]
  cases provider q with
  | error e => simp
  | ok organic =>
    simp only [run_serpapi_query, List.length_map]
    calc ((organic.take n).filter (fun r => r.link ≠ "")).length
        ≤ (organic.take n).length := List.length_filter_le _ _
      _ ≤ n := (organic.length_take_le n)

theorem searchLoop_eq_firstNonEmpty
    (provider : String → Except String (List RawHit))
    (queries : List String) (n : Nat) :
    searchLoop provider queries n =
      firstNonEmptySpec (queries.map (fun q => runQuery provider q n)) := by
  induction queries with
  | nil => rfl
  | cons q rest ih =>
    rw [List.map_cons, searchLoop, firstNonEmptySpec]
    by_cases h : (runQuery provider q n).isEmpty
    · rw [if_pos h, if_pos h, ih]
    · rw [if_neg h, if_neg h]

/-- C1. The search step tries the candidates in order and returns the
first candidate's non-empty result list: a provider exception makes
that candidate's result empty; if a candidate's result is non-empty
and all earlier ones were empty it is returned; if every candidate's
result is empty the loop returns `[]` without error; and every result
list is capped at `max_results` hits. -/
theorem c1_search_fallback_loop
    (provider : String → Except String (List RawHit))
    (queries : List String) (n : Nat) :
    (searchLoop provider queries n =
      firstNonEmptySpec (queries.map (fun q => runQuery provider q n))) ∧
    (∀ q e, provider q = Except.error e → runQuery provider q n = []) ∧
    ((∀ q ∈ queries, runQuery provider q n = []) →
      searchLoop provider queries n = []) ∧
    (∀ pre q post, queries = pre ++ q :: post →
      (∀ p ∈ pre, runQuery provider p n = []) →
      runQuery provider q n ≠ [] →
      searchLoop provider queries n = runQuery provider q n) ∧
    (searchLoop provider queries n).length ≤ n ∧
    (∀ topic f, search_web provider topic f n =
      searchLoop provider (searchQueries topic f) n) := by
  refine ⟨searchLoop_eq_firstNonEmpty provider queries n, ?_, ?_, ?_, ?_,
    fun topic f => rfl⟩
  · intro q e he
    rw [runQuery, he]
  · intro hall
    induction queries with
    | nil => rfl
    | cons q rest ih =>
      rw [searchLoop]
      have hq : runQuery provider q n = [] := hall q (by simp)
      rw [if_pos (by simp [hq])]
      exact ih fun p hp => hall p (by simp [hp])
  · intro pre q post hsplit hpre hq
    subst hsplit
    induction pre with
    | nil =>
      rw [List.nil_append, searchLoop,
        if_neg (by simpa [List.isEmpty_iff] using hq)]
    | cons p pre' ih =>
      have hp : runQuery provider p n = [] := hpre p (by simp)
      rw [List.cons_append, searchLoop, if_pos (by simp [hp])]
      exact ih fun p' hp' => hpre p' (by simp [hp'])
  · induction queries with
    | nil => exact Nat.zero_le n
    | cons q rest ih =>
      rw [searchLoop]
      by_cases h : (runQuery provider q n).isEmpty
      · rw [if_pos h]; exact ih
      · rw [if_neg h]; exact runQuery_length_le provider q n

/-- Example provider for the witness of `c1_search_fallback_loop`: the
first candidate raises, the second returns one hit. -/
def oracleEx : String → Except String (List RawHit) :=
  fun q => if q = "good" then Except.ok [⟨"T", "http://x", "S"⟩]
           else Except.error "transport down"

/-- Concrete instance of `c1_search_fallback_loop`: with a first
candidate that raises and a second that returns one hit, the loop
returns the second candidate's hit list. -/
theorem c1_witness :
    searchLoop oracleEx ["bad", "good"] 5 = [⟨"T", "http://x", "S"⟩] := by
  have h := (c1_search_fallback_loop oracleEx ["bad", "good"] 5).2.2.2.1
    ["bad"] "good" [] rfl
    (by
      intro p hp
      rcases List.mem_singleton.mp hp with rfl
      decide)
    (by decide)
  rw [h]
  decide

/-- `scrape_page` of `app.py` (lines 177-190), with the HTTP fetch and
HTML text extraction abstracted into an oracle: `Except.ok text` is
the visible text extracted inside the `try` block, `Except.error e`
the string of the exception raised anywhere inside it. The body
truncates the text to `max_chars` and the handler returns the
placeholder; the function itself never fails. -/
def scrape_page (fetched : Except String String) (max_chars : Nat) : String :=
  match fetched with
  | Except.ok text => takeChars max_chars text
  | Except.error e => "(scrape error: " ++ e ++ ")"

theorem length_takeChars (n : Nat) (s : String) : (takeChars n s).length ≤ n := by
  show (s.data.take n).length ≤ n
  rw [List.length_take]
  exact min_le_left _ _

/-- C7. The page fetcher is total over every fetch outcome: on success
it returns the extracted text truncated to `max_chars`, on any failure
the placeholder `"(scrape error: <details>)"`; no exception escapes. -/
theorem c7_scrape_never_raises (fetched : Except String String)
    (max_chars : Nat) :
    (∃ text, fetched = Except.ok text ∧
      scrape_page fetched max_chars = takeChars max_chars text ∧
      (scrape_page fetched max_chars).length ≤ max_chars) ∨
    (∃ e, fetched = Except.error e ∧
      scrape_page fetched max_chars = "(scrape error: " ++ e ++ ")") := by
  cases fetched with
  | ok text =>
    exact Or.inl ⟨text, rfl, rfl, length_takeChars max_chars text⟩
  | error e =>
    exact Or.inr ⟨e, rfl, rfl⟩

/-- An accepted pipeline item as appended at app.py lines 313-323. -/
structure ClassifiedResult where
  title : String
  link : String
  snippet : String
  type : String
  mode : String
  cost : String
  country : String
  region : String
  raw_text : String
deriving DecidableEq

/-- The `combined` text of app.py line 285:
`f"{r['title']} {r.get('snippet','')} {page_text}"`. -/
def combinedText (r : Hit) (page_text : String) : String :=
  r.title ++ " " ++ r.snippet ++ " " ++ page_text

/-- The item construction of app.py lines 297-323: classify the
combined text, default the snippet to the first 300 characters of the
page text when the hit's snippet is empty, and truncate the raw text
to 2000 characters. -/
def buildItem (r : Hit) (page_text country region : String) : ClassifiedResult :=
  let combined := combinedText r page_text
  { title := r.title
    link := r.link
    snippet := if r.snippet = "" then takeChars 300 page_text else r.snippet
    type := classify_type combined
    mode := classify_mode combined
    cost := classify_cost combined
    country := country
    region := region
    raw_text := takeChars 2000 combined }

/-- C6. Every constructed item carries the combined text hard-truncated
to at most 2000 characters as `raw_text`, and a snippet that is the
first 300 characters of the page text exactly when the hit's snippet
was empty, and the hit's snippet verbatim otherwise. -/
theorem c6_item_truncation_and_snippet (r : Hit)
    (page_text country region : String) :
    (buildItem r page_text country region).raw_text =
      takeChars 2000 (combinedText r page_text) ∧
    ((buildItem r page_text country region).raw_text).length ≤ 2000 ∧
    (r.snippet = "" → (buildItem r page_text country region).snippet =
      takeChars 300 page_text) ∧
    (r.snippet ≠ "" → (buildItem r page_text country region).snippet =
      r.snippet) := by
  refine ⟨rfl, length_takeChars 2000 (combinedText r page_text),
    fun h => ?_, fun h => ?_⟩
  · simp [buildItem, h]
  · simp [buildItem, h]

/-- Concrete instances of `c6_item_truncation_and_snippet` for an
empty and a non-empty source snippet. -/
theorem c6_witness :
    (buildItem ⟨"Kids Robotics Course", "http://x", ""⟩
      "Free online robotics course" "Any" "Any").snippet =
      takeChars 300 "Free online robotics course" ∧
    (buildItem ⟨"Kids Robotics Course", "http://x", "A snippet"⟩
      "Free online robotics course" "Any" "Any").snippet = "A snippet" := by
  constructor
  · exact (c6_item_truncation_and_snippet ⟨"Kids Robotics Course", "http://x", ""⟩
      "Free online robotics course" "Any" "Any").2.2.1 rfl
  · exact (c6_item_truncation_and_snippet
      ⟨"Kids Robotics Course", "http://x", "A snippet"⟩
      "Free online robotics course" "Any" "Any").2.2.2 (by decide)

/-- The persisted `content` value built at app.py line 337:
`f"[TYPE:{...}][MODE:{...}][COST:{...}][COUNTRY:{...}][REGION:{...}]\n{raw_text}"`. -/
def encodeContent (ty mo co cty rg raw : String) : String :=
  "[TYPE:" ++ ty ++ "][MODE:" ++ mo ++ "][COST:" ++ co ++ "][COUNTRY:" ++
    cty ++ "][REGION:" ++ rg ++ "]\n" ++ raw

/-- Scan a field value up to the closing bracket: returns the value
and the remainder after the bracket. -/
def spanField : List Char → Option (List Char × List Char)
  | [] => none
  | c :: rest =>
    if c = ']' then some ([], rest)
    else match spanField rest with
      | some (v, r) => some (c :: v, r)
      | none => none

/-- Parse one `<label><value>]` group from the front of `s`. -/
def parseField (label : List Char) (s : List Char) :
    Option (List Char × List Char) :=
  if s.take label.length = label then spanField (s.drop label.length)
  else none

/-- The first line of a character list (everything before the first
newline). -/
def firstLine : List Char → List Char
  | [] => []
  | c :: rest => if c = '\n' then [] else c :: firstLine rest

/-- A reader for the persisted record format: parse the five bracketed
tag groups out of the first line of `content`. -/
def decodeTags (content : String) :
    Option (String × String × String × String × String) :=
  let line := firstLine content.data
  match parseField "[TYPE:".data line with
  | none => none
  | some (ty, r1) =>
    match parseField "[MODE:".data r1 with
    | none => none
    | some (mo, r2) =>
      match parseField "[COST:".data r2 with
      | none => none
      | some (co, r3) =>
        match parseField "[COUNTRY:".data r3 with
        | none => none
        | some (cty, r4) =>
          match parseField "[REGION:".data r4 with
          | none => none
          | some (rg, _) => some (⟨ty⟩, ⟨mo⟩, ⟨co⟩, ⟨cty⟩, ⟨rg⟩)

/-- A tag field value that cannot break the single-line bracketed
format: no closing bracket and no newline among its characters. -/
def cleanField (s : String) : Prop := ∀ a ∈ s.data, a ≠ ']' ∧ a ≠ '\n'

instance (s : String) : Decidable (cleanField s) :=
  inferInstanceAs (Decidable (∀ a ∈ s.data, a ≠ ']' ∧ a ≠ '\n'))

theorem spanField_append (v r : List Char) (hv : ∀ a ∈ v, a ≠ ']') :
    spanField (v ++ ']' :: r) = some (v, r) := by
  induction v with
  | nil => simp [spanField]
  | cons c v' ih =>
    have hc : c ≠ ']' := hv c (by simp)
    rw [List.cons_append, spanField, if_neg hc,
      ih fun a ha => hv a (by simp [ha])]

theorem parseField_exact (label v r : List Char) (hv : ∀ a ∈ v, a ≠ ']') :
    parseField label (label ++ v ++ ']' :: r) = some (v, r) := by
  rw [parseField, List.append_assoc, List.take_left, if_pos rfl,
    List.drop_left, spanField_append v r hv]

theorem firstLine_append (l r : List Char) (h : ∀ a ∈ l, a ≠ '\n') :
    firstLine (l ++ '\n' :: r) = l := by
  induction l with
  | nil => simp [firstLine]
  | cons c l' ih =>
    have hc : c ≠ '\n' := h c (by simp)
    rw [List.cons_append, firstLine, if_neg hc,
      ih fun a ha => h a (by simp [ha])]

/-- C8. The persisted record format round-trips: for any five tag
field values free of `]` and newline characters — which all values the
pipeline persists are, since the classifier outputs come from fixed
label sets — a reader given only the encoded content string recovers
all five fields from the bracketed prefix of its first line, whatever
the raw text is. -/
theorem c8_content_roundtrip :
    (∀ ty mo co cty rg raw : String,
      cleanField ty → cleanField mo → cleanField co → cleanField cty →
      cleanField rg →
      decodeTags (encodeContent ty mo co cty rg raw) =
        some (ty, mo, co, cty, rg)) ∧
    (∀ text : String, cleanField (classify_type text) ∧
      cleanField (classify_mode text) ∧ cleanField (classify_cost text)) := by
  constructor
  · intro ty mo co cty rg raw h1 h2 h3 h4 h5
    have e2 : "][MODE:".data = ']' :: "[MODE:".data := by decide
    have e3 : "][COST:".data = ']' :: "[COST:".data := by decide
    have e4 : "][COUNTRY:".data = ']' :: "[COUNTRY:".data := by decide
    have e5 : "][REGION:".data = ']' :: "[REGION:".data := by decide
    have e6 : "]\n".data = [']', '\n'] := by decide
    have hdata : (encodeContent ty mo co cty rg raw).data =
        ("[TYPE:".data ++ ty.data ++ ']' ::
          ("[MODE:".data ++ mo.data ++ ']' ::
            ("[COST:".data ++ co.data ++ ']' ::
              ("[COUNTRY:".data ++ cty.data ++ ']' ::
                ("[REGION:".data ++ rg.data ++ ']' :: []))))) ++
          '\n' :: raw.data := by
      simp only [encodeContent, String.data_append, e2, e3, e4, e5, e6]
      simp [List.append_assoc]
    have hline : firstLine (encodeContent ty mo co cty rg raw).data =
        "[TYPE:".data ++ ty.data ++ ']' ::
          ("[MODE:".data ++ mo.data ++ ']' ::
            ("[COST:".data ++ co.data ++ ']' ::
              ("[COUNTRY:".data ++ cty.data ++ ']' ::
                ("[REGION:".data ++ rg.data ++ ']' :: [])))) := by
      rw [hdata]
      refine firstLine_append _ _ ?_
      simp only [List.forall_mem_append, List.forall_mem_cons]
      refine ⟨⟨by decide, fun a ha => (h1 a ha).2⟩, by decide,
        ⟨by decide, fun a ha => (h2 a ha).2⟩, by decide,
        ⟨by decide, fun a ha => (h3 a ha).2⟩, by decide,
        ⟨by decide, fun a ha => (h4 a ha).2⟩, by decide,
        ⟨by decide, fun a ha => (h5 a ha).2⟩, by decide⟩
    have p5 : parseField "[REGION:".data
        ("[REGION:".data ++ rg.data ++ ']' :: []) = some (rg.data, []) :=
      parseField_exact _ _ _ fun a ha => (h5 a ha).1
    have p4 : parseField "[COUNTRY:".data
        ("[COUNTRY:".data ++ cty.data ++ ']' ::
          ("[REGION:".data ++ rg.data ++ ']' :: [])) =
        some (cty.data, "[REGION:".data ++ rg.data ++ ']' :: []) :=
      parseField_exact _ _ _ fun a ha => (h4 a ha).1
    have p3 : parseField "[COST:".data
        ("[COST:".data ++ co.data ++ ']' ::
          ("[COUNTRY:".data ++ cty.data ++ ']' ::
            ("[REGION:".data ++ rg.data ++ ']' :: []))) =
        some (co.data, "[COUNTRY:".data ++ cty.data ++ ']' ::
          ("[REGION:".data ++ rg.data ++ ']' :: [])) :=
      parseField_exact _ _ _ fun a ha => (h3 a ha).1
    have p2 : parseField "[MODE:".data
        ("[MODE:".data ++ mo.data ++ ']' ::
          ("[COST:".data ++ co.data ++ ']' ::
            ("[COUNTRY:".data ++ cty.data ++ ']' ::
              ("[REGION:".data ++ rg.data ++ ']' :: [])))) =
        some (mo.data, "[COST:".data ++ co.data ++ ']' ::
          ("[COUNTRY:".data ++ cty.data ++ ']' ::
            ("[REGION:".data ++ rg.data ++ ']' :: []))) :=
      parseField_exact _ _ _ fun a ha => (h2 a ha).1
    have p1 : parseField "[TYPE:".data
        ("[TYPE:".data ++ ty.data ++ ']' ::
          ("[MODE:".data ++ mo.data ++ ']' ::
            ("[COST:".data ++ co.data ++ ']' ::
              ("[COUNTRY:".data ++ cty.data ++ ']' ::
                ("[REGION:".data ++ rg.data ++ ']' :: []))))) =
        some (ty.data, "[MODE:".data ++ mo.data ++ ']' ::
          ("[COST:".data ++ co.data ++ ']' ::
            ("[COUNTRY:".data ++ cty.data ++ ']' ::
              ("[REGION:".data ++ rg.data ++ ']' :: [])))) :=
      parseField_exact _ _ _ fun a ha => (h1 a ha).1
    rw [decodeTags]
    simp only [hline, p1, p2, p3, p4, p5]
  · intro text
    have hty : classify_type text = "Seminar / Workshop" ∨
        classify_type text = "Video / Lecture" ∨
        classify_type text = "Course" ∨
        classify_type text = "Article / Other" := by
      simp only [classify_type]
      split
      · exact Or.inl rfl
      split
      · exact Or.inr (Or.inl rfl)
      split
      · exact Or.inr (Or.inr (Or.inl rfl))
      · exact Or.inr (Or.inr (Or.inr rfl))
    have hmo : classify_mode text = "Online" ∨
        classify_mode text = "In-person" ∨ classify_mode text = "Unknown" := by
      simp only [classify_mode]
      split
      · exact Or.inl rfl
      split
      · exact Or.inr (Or.inl rfl)
      · exact Or.inr (Or.inr rfl)
    have hco : classify_cost text = "Free" ∨
        classify_cost text = "Paid / Unknown" ∨
        classify_cost text = "Unknown" := by
      simp only [classify_cost]
      split
      · exact Or.inl rfl
      split
      · exact Or.inr (Or.inl rfl)
      · exact Or.inr (Or.inr rfl)
    refine ⟨?_, ?_, ?_⟩
    · rcases hty with h | h | h | h <;> rw [h] <;> decide
    · rcases hmo with h | h | h <;> rw [h] <;> decide
    · rcases hco with h | h | h <;> rw [h] <;> decide

/-- Concrete instance of `c8_content_roundtrip`: an encoded record
with realistic tag values and a raw text containing brackets and
newlines decodes back to the same five fields. -/
theorem c8_witness :
    decodeTags (encodeContent "Course" "Online" "Free" "Australia"
      "Melbourne" "Free online robotics [course]\nfor kids") =
      some ("Course", "Online", "Free", "Australia", "Melbourne") :=
  c8_content_roundtrip.1 "Course" "Online" "Free" "Australia" "Melbourne"
    "Free online robotics [course]\nfor kids"
    (by decide) (by decide) (by decide) (by decide) (by decide)

/-- A row of the `results` table of `database.py` (lines 7-14). -/
structure StoredRow where
  id : Nat
  query : String
  title : String
  link : String
  content : String
deriving DecidableEq

/-- The sqlite database file as seen through `database.py`: whether the
`results` table exists, its rows in insertion order, and the next
`AUTOINCREMENT` id. -/
structure DBState where
  schemaCreated : Bool
  rows : List StoredRow
  nextId : Nat
deriving DecidableEq

/-- A fresh database file: no table, no rows, `AUTOINCREMENT` starts
at 1. -/
def initState : DBState := ⟨false, [], 1⟩

/-- `create_database` of `database.py` (lines 5-15):
`CREATE TABLE IF NOT EXISTS` — creates the table when absent and is a
no-op on the data otherwise; it never errors and never duplicates the
schema. -/
def create_database (s : DBState) : DBState := { s with schemaCreated := true }

/-- `save_result` of `database.py` (lines 17-22): insert one row; the
id column is `AUTOINCREMENT`, so the new row takes the next id and the
counter advances. Existing rows are untouched. -/
def save_result (query title link content : String) (s : DBState) : DBState :=
  { s with
    rows := s.rows ++ [⟨s.nextId, query, title, link,
      if content = "" then "" else content⟩]
    nextId := s.nextId + 1 }

/-- `get_results` of `database.py` (lines 24-28): all rows ordered by
id descending, i.e. reverse insertion order (ids are assigned in
increasing insertion order). -/
def get_results (s : DBState) : List StoredRow := s.rows.reverse

/-- One call into `database.py`. -/
inductive DBOp where
  | create : DBOp
  | save (query title link content : String) : DBOp
deriving DecidableEq

/-- Apply one call to the database state. -/
def applyOp (s : DBState) : DBOp → DBState
  | DBOp.create => create_database s
  | DBOp.save q t l c => save_result q t l c s

/-- Run a sequence of calls from a given state. -/
def runOps (s : DBState) : List DBOp → DBState
  | [] => s
  | op :: ops => runOps (applyOp s op) ops

/-- Row ids are strictly increasing along the insertion order and stay
below the next id to be assigned. -/
def goodState (s : DBState) : Prop :=
  s.rows.Chain' (fun a b => a.id < b.id) ∧ ∀ row ∈ s.rows, row.id < s.nextId

theorem goodState_applyOp (s : DBState) (op : DBOp) (h : goodState s) :
    goodState (applyOp s op) := by
  cases op with
  | create => exact h
  | save q t l c =>
    obtain ⟨hchain, hlt⟩ := h
    constructor
    · rw [applyOp, save_result]
      refine List.chain'_append.mpr ⟨hchain, List.chain'_singleton _, ?_⟩
      intro x hx y hy
      rw [List.head?_cons, Option.mem_some_iff] at hy
      subst hy
      exact hlt x (List.mem_of_mem_getLast? hx)
    · intro row hrow
      rcases List.mem_append.mp hrow with hm | hm
      · exact Nat.lt_succ_of_lt (hlt row hm)
      · rw [List.mem_singleton.mp hm]
        exact Nat.lt_succ_self _

theorem goodState_runOps (s : DBState) (ops : List DBOp) (h : goodState s) :
    goodState (runOps s ops) := by
  induction ops generalizing s with
  | nil => exact h
  | cons op ops ih => exact ih (applyOp s op) (goodState_applyOp s op h)

/-- C9. Store invariants over every call sequence from a fresh
database: each call either leaves the rows unchanged or appends
exactly one new row (never an update or delete); the ids of the rows
ever stored are strictly increasing in assignment order (hence
unique); retrieval returns the rows in reverse insertion order; and
`create_database` is idempotent and total, so initialising twice
neither errors nor duplicates the schema. -/
theorem c9_store_invariants :
    (∀ (s : DBState) (op : DBOp),
      (applyOp s op).rows = s.rows ∨
      ∃ row, (applyOp s op).rows = s.rows ++ [row]) ∧
    (∀ ops : List DBOp,
      (runOps initState ops).rows.Chain' (fun a b => a.id < b.id) ∧
      (runOps initState ops).rows.Pairwise (fun a b => a.id ≠ b.id)) ∧
    (∀ s : DBState, get_results s = s.rows.reverse) ∧
    (∀ s : DBState, create_database (create_database s) = create_database s ∧
      (create_database s).rows = s.rows) := by
  refine ⟨?_, ?_, fun s => rfl, fun s => ⟨rfl, rfl⟩⟩
  · intro s op
    cases op with
    | create => exact Or.inl rfl
    | save q t l c => exact Or.inr ⟨_, rfl⟩
  · intro ops
    have h := goodState_runOps initState ops ⟨List.chain'_nil, by simp [initState]⟩
    refine ⟨h.1, ?_⟩
    haveI : IsTrans StoredRow (fun a b => a.id < b.id) :=
      ⟨fun a b c h1 h2 => Nat.lt_trans h1 h2⟩
    exact (List.chain'_iff_pairwise.mp h.1).imp fun hab => Nat.ne_of_lt hab

end KidsSmart
